import Mathlib

/-!
Verification of the patch-generation engine of the kube-sidecar-injector
webhook (`cmd/webhook.go`), via a shallow embedding in Lean.

Modelling conventions:
* Go strings are modelled as `List Char` (`GoStr`).  All string constants the
  program manipulates are ASCII, so character-level and byte-level slicing
  agree on the inputs of interest; `strings.ToLower` is modelled by ASCII
  lowercasing (`Char.toLower`).
* Go maps read through `m[k]` (zero value `""` on a missing key) are modelled
  as association lists with a first-match lookup defaulting to the empty
  string.  A nil-able map whose nil-ness the program observes
  (`pod.Annotations`) is modelled as an `Option` of an association list.
* Go slice index assignments such as `Env[0].Value = ...` panic when the index
  is out of range, and the map write `CSI.VolumeAttributes[k] = v` panics on a
  nil map; fallible pieces therefore return `Option`, with `none` standing for
  a runtime panic that aborts the request.
* `rand.Intn(100)` (used only by `appendIntIfNeeded`) is modelled by an
  externally supplied number, reduced `% 100`; `createPatch` receives a stream
  `rands : Nat → Nat` providing one potential draw per secret, so every
  concrete execution of the Go code corresponds to some choice of stream.
* `encoding/json.Marshal` applied to the accumulated `[]patchOperation` slice:
  the slice starts `nil` and only grows, so it is `nil` exactly when no
  operation was emitted, and Go marshals a nil slice to JSON `null` (not to
  `[]`).  This is captured by `MarshalResult` with constructors `jnull` and
  `jarr`.
-/

abbrev GoStr := List Char

/-- First-match lookup in an association list (Go map read, `v, ok` form). -/
def lookupStr : List (GoStr × GoStr) → GoStr → Option GoStr
  | [], _ => none
  | (k, v) :: rest, key => if k == key then some v else lookupStr rest key

/-- Go map read `m[k]` with the string zero value on a missing key. -/
def lookupD (m : List (GoStr × GoStr)) (k : GoStr) : GoStr :=
  (lookupStr m k).getD []

/-- Go map write `m[k] = v`: overwrite the binding if present, else add it. -/
def mapSet : List (GoStr × GoStr) → GoStr → GoStr → List (GoStr × GoStr)
  | [], key, v => [(key, v)]
  | (k, w) :: rest, key, v =>
    if k == key then (key, v) :: rest else (k, w) :: mapSet rest key v

/-- `strings.ToLower`, restricted to ASCII case mapping. -/
def goToLower (s : GoStr) : GoStr := s.map Char.toLower

/-- Does `s` start with `pat`? (helper for the substring test) -/
def startsWithStr : GoStr → GoStr → Bool
  | _, [] => true
  | [], _ :: _ => false
  | c :: cs, p :: ps => c == p && startsWithStr cs ps

/-- `strings.Contains s pat`. -/
def containsSubstr : GoStr → GoStr → Bool
  | s, pat =>
    startsWithStr s pat ||
      match s with
      | [] => false
      | _ :: rest => containsSubstr rest pat

/-- `strings.Split s sep` for a one-character separator: Go semantics, the
result is never empty and empty fields are kept. -/
def goSplit (sep : Char) : GoStr → List GoStr
  | [] => [[]]
  | c :: rest =>
    if c == sep then [] :: goSplit sep rest
    else
      match goSplit sep rest with
      | [] => [[c]]
      | g :: gs => (c :: g) :: gs

/-- `strings.ReplaceAll s "--" "-"`: one left-to-right pass over
non-overlapping occurrences. -/
def replaceDashDash : GoStr → GoStr
  | '-' :: '-' :: rest => '-' :: replaceDashDash rest
  | c :: rest => c :: replaceDashDash rest
  | [] => []

/-- `strings.TrimRight s "-"`. -/
def trimRightDash (s : GoStr) : GoStr :=
  (s.reverse.dropWhile (fun c => c == '-')).reverse

/-- `limitString` from the source: truncate to at most `n` characters. -/
def limitString (s : GoStr) (n : Nat) : GoStr :=
  if n < s.length then s.take n else s

/-- `cleanName` from the source: collapse doubled dashes (one pass), trim
trailing dashes. -/
def cleanName (name : GoStr) : GoStr := trimRightDash (replaceDashDash name)

/-- Decimal digit character. -/
def digitChar (n : Nat) : Char := Char.ofNat (48 + n)

/-- Core of the decimal rendering, structurally recursive on a fuel argument
so that it evaluates by kernel reduction; `fuel ≥ 1` always suffices to emit
at least one digit, and `natDigits` passes `n + 1`, which is enough fuel for
all digits of `n`. -/
def natDigitsCore : Nat → Nat → GoStr → GoStr
  | 0, _, acc => acc
  | fuel + 1, n, acc =>
    if n < 10 then digitChar n :: acc
    else natDigitsCore fuel (n / 10) (digitChar (n % 10) :: acc)

/-- Decimal rendering of a natural number (`strconv.Itoa` for n ≥ 0). -/
def natDigits (n : Nat) : GoStr := natDigitsCore (n + 1) n []

/-- Lowercase-alphanumeric test: the character class `[a-z0-9]`. -/
def isLowerAlnum (c : Char) : Bool :=
  ('a' ≤ c && c ≤ 'z') || ('0' ≤ c && c ≤ '9')

/-- The character class `[-a-z0-9]`. -/
def nameChar (c : Char) : Bool := isLowerAlnum c || c == '-'

/-- The validity grammar `^[a-z0-9]([-a-z0-9]*[a-z0-9])?$`: nonempty, every
character in `[-a-z0-9]`, first and last character in `[a-z0-9]`. -/
def validNameRegex (s : GoStr) : Bool :=
  !s.isEmpty && isLowerAlnum (s.headD 'A') && s.all nameChar &&
    isLowerAlnum (s.reverse.headD 'A')

/-- The illegal-character sample set from `appendIntIfNeeded`. -/
def illegalChars : GoStr := "!@#$%^&*()".toList

/-- `appendIntIfNeeded` from the source; the random draw `rand.Intn(100)` is
supplied externally as `rnd % 100`. -/
def appendIntIfNeeded (rnd : Nat) (name : GoStr) : GoStr :=
  if name.any (fun c => illegalChars.contains c) then
    name ++ natDigits (rnd % 100)
  else name

-- Annotation keys of the webhook (`admissionWebhookAnnotation*Key`).
def injectKey : GoStr := "filer-injector-webhook.das-zone.statcan/inject".toList
def statusKey : GoStr := "filer-injector-webhook.das-zone.statcan/status".toList
def notebookNameKey : GoStr := "notebook-name".toList

/-- The negative set of the `switch` in `mutationRequired`. -/
def negSet : List GoStr := ["n".toList, "not".toList, "false".toList, "off".toList]

/-- Pod/object metadata as read by `mutationRequired` and `createPatch`.
Labels are only read (nil and empty maps are indistinguishable there);
annotations keep the nil distinction because `updateAnnotation` observes it. -/
structure ObjectMeta where
  namespaceName : GoStr
  labels : List (GoStr × GoStr)
  annots : Option (List (GoStr × GoStr))
deriving DecidableEq

/-- `mutationRequired` from the source. -/
def mutationRequired (md : ObjectMeta) : Bool :=
  if (lookupStr md.labels notebookNameKey).isSome = false then false
  else
    let annots := md.annots.getD []
    let status := lookupD annots statusKey
    if goToLower status == "injected".toList then false
    else if negSet.contains (goToLower (lookupD annots injectKey)) then false
    else true

/-! ## Data model: pod, sidecar template, secrets, patch operations -/

structure EnvVar where
  name : GoStr
  value : GoStr
deriving DecidableEq

structure VolumeMount where
  name : GoStr
  mountPath : GoStr
deriving DecidableEq

/-- `corev1.CSIVolumeSource`, restricted to the field the program touches.
`volumeAttributes` keeps Go's nil-map distinction: writing through a nil map
panics. -/
structure CSIVolumeSource where
  volumeAttributes : Option (List (GoStr × GoStr))
deriving DecidableEq

/-- `corev1.Volume`, restricted to the fields the program touches; `csi` is a
nil-able pointer in Go. -/
structure Volume where
  name : GoStr
  csi : Option CSIVolumeSource
deriving DecidableEq

structure Container where
  name : GoStr
  args : List GoStr
  env : List EnvVar
  volumeMounts : List VolumeMount
deriving DecidableEq

/-- The sidecar `Config` (one container plus volumes in the shipped
configuration; the type itself does not force that shape). -/
structure Config where
  containers : List Container
  volumes : List Volume
deriving DecidableEq

structure PodSpec where
  containers : List Container
  volumes : List Volume
deriving DecidableEq

structure Pod where
  metadata : ObjectMeta
  spec : PodSpec
deriving DecidableEq

/-- One secret from the namespace listing.  The program reads exactly the four
data keys below through Go map reads (missing key ↦ empty string), so each is
modelled as a string field with `[]` standing for absent-or-empty. -/
structure Secret where
  name : GoStr
  s3Bucket : GoStr
  s3Url : GoStr
  s3Access : GoStr
  s3Secret : GoStr
deriving DecidableEq

/-- The mount map `valueA` built by `updateWorkingVolumeMounts` (the `M` map
literal with keys name/mountPath/readOnly/mountPropagation). -/
structure MountValue where
  name : GoStr
  mountPath : GoStr
  readOnly : Bool
  mountPropagation : GoStr
deriving DecidableEq

/-- The `interface{}` values carried by the emitted patch operations. -/
inductive PatchValue where
  | container (c : Container)
  | containerList (cs : List Container)
  | volume (v : Volume)
  | volumeList (vs : List Volume)
  | strMap (m : List (GoStr × GoStr))
  | str (s : GoStr)
  | mount (m : MountValue)
  | mountList (ms : List MountValue)
deriving DecidableEq

/-- `patchOperation` from the source. -/
structure PatchOp where
  op : GoStr
  path : GoStr
  value : Option PatchValue
deriving DecidableEq

/-! ## Patch builders -/

/-- Loop body of `addContainer`, with the running `first` flag. -/
def addContainerLoop (first : Bool) (basePath : GoStr) :
    List Container → List PatchOp
  | [] => []
  | add :: rest =>
    if first then
      { op := "add".toList, path := basePath,
        value := some (.containerList [add]) } :: addContainerLoop false basePath rest
    else
      { op := "add".toList, path := basePath ++ "/-".toList,
        value := some (.container add) } :: addContainerLoop false basePath rest

/-- `addContainer` from the source. -/
def addContainer (target added : List Container) (basePath : GoStr) : List PatchOp :=
  addContainerLoop (target.length == 0) basePath added

/-- Loop body of `addVolume`, with the running `first` flag. -/
def addVolumeLoop (first : Bool) (basePath : GoStr) : List Volume → List PatchOp
  | [] => []
  | add :: rest =>
    if first then
      { op := "add".toList, path := basePath,
        value := some (.volumeList [add]) } :: addVolumeLoop false basePath rest
    else
      { op := "add".toList, path := basePath ++ "/-".toList,
        value := some (.volume add) } :: addVolumeLoop false basePath rest

/-- `addVolume` from the source. -/
def addVolume (target added : List Volume) (basePath : GoStr) : List PatchOp :=
  addVolumeLoop (target.length == 0) basePath added

/-- `updateAnnotation` from the source.  The Go range order over the `added`
map is fixed here as the list order (the program only ever passes a
single-key map).  Note the source reassigns `target` to a fresh empty map
inside the first branch, which this recursion reproduces. -/
def updateAnnotation :
    Option (List (GoStr × GoStr)) → List (GoStr × GoStr) → List PatchOp
  | _, [] => []
  | target, (k, v) :: rest =>
    if target.isNone || lookupD (target.getD []) k == ([] : GoStr) then
      { op := "add".toList, path := "/metadata/annotations".toList,
        value := some (.strMap [(k, v)]) } :: updateAnnotation (some []) rest
    else
      { op := "replace".toList, path := "/metadata/annotations/".toList ++ k,
        value := some (.str v) } :: updateAnnotation target rest

/-- `updateWorkingVolumeMounts` from the source: for every env entry named
`NB_PREFIX` in any existing container, emit one volume-mount add, always
targeting container index 0; `isFirst` chooses singleton-list vs append
semantics and is never flipped inside the function. -/
def updateWorkingVolumeMounts (targetContainerSpec : List Container)
    (volumeName bucketMount filerName : GoStr) (first : Bool) : List PatchOp :=
  targetContainerSpec.flatMap fun c =>
    c.env.flatMap fun e =>
      if e.name == "NB_PREFIX".toList then
        let valueA : MountValue :=
          { name := volumeName,
            mountPath := "/home/jovyan/filers/".toList ++ filerName ++
              "/".toList ++ bucketMount,
            readOnly := false,
            mountPropagation := "HostToContainer".toList }
        if first then
          [{ op := "add".toList, path := "/spec/containers/0/volumeMounts".toList,
             value := some (.mountList [valueA]) }]
        else
          [{ op := "add".toList, path := "/spec/containers/0/volumeMounts/-".toList,
             value := some (.mount valueA) }]
      else []

/-! ## The goofys command line and the template specialization -/

def goofysArg (s3Url bucketMount : GoStr) : GoStr :=
  "/goofys --cheap --endpoint ".toList ++ s3Url ++
    " --http-timeout 1500s --dir-mode 0777 --file-mode 0777  --debug_fuse --debug_s3 -o allow_other -f ".toList ++
    bucketMount ++ "/ /tmp; echo sleeping...; sleep infinity".toList

def attrKey : GoStr := "fdPassingEmptyDirName".toList

/-- The per-credential mutation block of `createPatch` (lines 291–307),
applied to the deep copy of the template.  Go panics (index out of range on
`Containers[0]`, `Env[0..2]`, `VolumeMounts[0]`, `Volumes[0..1]`, nil `CSI`
pointer, nil `VolumeAttributes` map) are returned as `none`. -/
def specialize (tmpl : Config) (filerBucketName ns bucketMount s3Url s3Access
    s3Secret : GoStr) : Option Config :=
  match tmpl.containers, tmpl.volumes with
  | c0 :: cs, v0 :: v1 :: vs =>
    match c0.env, c0.volumeMounts, v1.csi with
    | e0 :: e1 :: e2 :: es, vm0 :: vms, some csiSrc =>
      match csiSrc.volumeAttributes with
      | some attrs =>
        let fdPassingvolumeMountName :=
          "fuse-fd-passing-".toList ++ filerBucketName ++ "-".toList ++ ns
        let csiEphemeralVolumeountName :=
          "fuse-csi-ephemeral-".toList ++ filerBucketName ++ "-".toList ++ ns
        some
          { containers :=
              { c0 with
                name := filerBucketName,
                args := ["-c".toList, goofysArg s3Url bucketMount],
                env :=
                  { e0 with value := "fusermount3-proxy-".toList ++
                      filerBucketName ++ "-".toList ++ ns ++
                      "/fuse-csi-ephemeral.sock".toList } ::
                  { e1 with value := s3Access } ::
                  { e2 with value := s3Secret } :: es,
                volumeMounts :=
                  { vm0 with
                    name := fdPassingvolumeMountName,
                    mountPath := "fusermount3-proxy-".toList ++
                      filerBucketName ++ "-".toList ++ ns } :: vms } :: cs,
            volumes :=
              { v0 with name := fdPassingvolumeMountName } ::
              { v1 with
                name := csiEphemeralVolumeountName,
                csi := some { csiSrc with
                  volumeAttributes :=
                    some (mapSet attrs attrKey fdPassingvolumeMountName) } } ::
              vs }
      | none => none
    | _, _, _ => none
  | _, _ => none

/-! ## The naming pipeline (lines 232–288) -/

def filerPat : GoStr := "filer-conn-secret".toList

/-- Lines 233–237: first dash-separated segment of the secret name, or
`"error"` when there is no dash. -/
def filerNameOf (secretName : GoStr) : GoStr :=
  let parts := goSplit '-' secretName
  if 1 < parts.length then parts.headD [] else "error".toList

/-- Lines 259–269: truncated `filer-bucket` join, doubled dashes collapsed,
trailing dashes trimmed. -/
def rawNameOf (filerName bucketMount : GoStr) : GoStr :=
  let bucketDirs := goSplit '/' bucketMount
  trimRightDash (replaceDashDash
    (limitString filerName 7 ++ "-".toList ++ limitString (bucketDirs.headD []) 5))

/-- Lines 271–278: regex validation, one `cleanName` retry, then the
best-effort numeric fallback. -/
def validatedNameOf (rnd : Nat) (raw : GoStr) : GoStr :=
  if validNameRegex raw then raw
  else
    let c := cleanName raw
    if validNameRegex c then c else appendIntIfNeeded rnd c

/-- Lines 280–283: append the truncated deepest directory segment — after the
validation above. -/
def withDeepest (bucketMount : GoStr) (n : GoStr) : GoStr :=
  let bucketDirs := goSplit '/' bucketMount
  if 2 ≤ bucketDirs.length then
    n ++ "-".toList ++ limitString (bucketDirs.getLastD []) 5
  else n

/-- The name computed for one secret, before request-level deduplication. -/
def nameForSecret (rnd : Nat) (filerName bucketMount : GoStr) : GoStr :=
  withDeepest bucketMount (validatedNameOf rnd (rawNameOf filerName bucketMount))

/-- Lines 286–288: request-level deduplication by ordinal suffix. -/
def dedupName (used : List GoStr) (n : GoStr) : GoStr :=
  if used.contains n then n ++ "-".toList ++ natDigits (used.length + 1) else n

/-! ## The orchestrator loop of `createPatch` -/

/-- The request-scoped loop state of `createPatch`.  The template travels in
the state so that the frame property "the shared template is never mutated"
is expressible: the source deep-copies the template each iteration and writes
only to the copy, so the `tmpl` component is never replaced. -/
structure LoopState where
  tmpl : Config
  isFirstVol : Bool
  filerBucketList : List GoStr
  patch : List PatchOp
deriving DecidableEq

/-- Lines 222–226: the initial state of one request. -/
def initState (pod : Pod) (tmpl : Config) : LoopState :=
  { tmpl := tmpl,
    isFirstVol := if 0 < pod.spec.volumes.length then false else true,
    filerBucketList := [],
    patch := [] }

/-- One iteration of the secret loop (lines 229–314). -/
def processSecret (pod : Pod) (addedAnnots : List (GoStr × GoStr)) (rnd : Nat)
    (st : LoopState) (s : Secret) : Option LoopState :=
  if containsSubstr s.name filerPat then
    let filerName := filerNameOf s.name
    if s.s3Bucket == ([] : GoStr) || s.s3Url == ([] : GoStr) ||
        s.s3Access == ([] : GoStr) || s.s3Secret == ([] : GoStr) then
      some st
    else
      let fb := dedupName st.filerBucketList (nameForSecret rnd filerName s.s3Bucket)
      match specialize st.tmpl fb pod.metadata.namespaceName s.s3Bucket
          s.s3Url s.s3Access s.s3Secret with
      | none => none
      | some sidecarConfig =>
        let csiEphemeralVolumeountName :=
          "fuse-csi-ephemeral-".toList ++ fb ++ "-".toList ++
            pod.metadata.namespaceName
        some
          { st with
            isFirstVol := false,
            filerBucketList := st.filerBucketList ++ [fb],
            patch := st.patch
              ++ addContainer pod.spec.containers sidecarConfig.containers
                  "/spec/containers".toList
              ++ addVolume pod.spec.volumes sidecarConfig.volumes
                  "/spec/volumes".toList
              ++ updateAnnotation pod.metadata.annots addedAnnots
              ++ updateWorkingVolumeMounts pod.spec.containers
                  csiEphemeralVolumeountName s.s3Bucket filerName st.isFirstVol }
  else some st

/-- The secret loop; `rands` supplies one potential random draw per secret. -/
def processSecrets (pod : Pod) (addedAnnots : List (GoStr × GoStr))
    (rands : Nat → Nat) (st : LoopState) : List Secret → Option LoopState
  | [] => some st
  | s :: rest =>
    match processSecret pod addedAnnots (rands 0) st s with
    | none => none
    | some st' => processSecrets pod addedAnnots (fun n => rands (n + 1)) st' rest

/-- The JSON document produced by `json.Marshal` on the patch slice: Go
marshals the nil slice (no operation ever appended) as JSON `null`, and a
non-empty slice as a JSON array. -/
inductive MarshalResult where
  | jnull
  | jarr (ops : List PatchOp)
deriving DecidableEq

def goMarshalPatch (ops : List PatchOp) : MarshalResult :=
  if ops.isEmpty then .jnull else .jarr ops

/-- `createPatch` from the source, with the secret listing supplied as an
input (the Kubernetes client is an external collaborator) and `none` standing
for a Go panic. -/
def createPatch (pod : Pod) (tmpl : Config) (addedAnnots : List (GoStr × GoStr))
    (rands : Nat → Nat) (secrets : List Secret) : Option MarshalResult :=
  (processSecrets pod addedAnnots rands (initState pod tmpl) secrets).map
    (fun st => goMarshalPatch st.patch)

/-! ## Concrete fixtures for witnesses and counterexamples -/

/-- A well-formed sidecar template in the shape of the shipped configuration:
one container with three env entries and one volume mount, plus two volumes,
the second one a CSI volume with a (non-nil) attribute map. -/
def tmplEx : Config :=
  { containers :=
      [{ name := "goofys".toList, args := [],
         env := [⟨"E0".toList, []⟩, ⟨"E1".toList, []⟩, ⟨"E2".toList, []⟩],
         volumeMounts := [⟨"fdpass".toList, "/tmp/fd".toList⟩] }],
    volumes :=
      [⟨"fdvol".toList, none⟩,
       ⟨"csivol".toList, some ⟨some []⟩⟩] }

/-- A notebook user container carrying the `NB_PREFIX` marker env entry. -/
def nbContainer : Container :=
  { name := "nb".toList, args := [],
    env := [⟨"NB_PREFIX".toList, "/nb".toList⟩], volumeMounts := [] }

/-- An eligible pod (namespace varies) with one container and no volumes. -/
def podNs (ns : GoStr) : Pod :=
  { metadata := ⟨ns, [(notebookNameKey, "nb".toList)], none⟩,
    spec := { containers := [nbContainer], volumes := [] } }

def podEx : Pod := podNs "zone".toList

/-- The annotations map `mutate` passes to `createPatch`. -/
def annEx : List (GoStr × GoStr) := [(statusKey, "injected".toList)]

-- Three secrets whose computed names are "a-3", "a" and "a" in listing order.
def secA : Secret :=
  ⟨"a-filer-conn-secret".toList, "3".toList, "u".toList, "k".toList, "x".toList⟩
def secB : Secret :=
  ⟨"a-filer-conn-secretb".toList, "-".toList, "u".toList, "k".toList, "x".toList⟩
def secC : Secret :=
  ⟨"a-filer-conn-secretc".toList, "-".toList, "u".toList, "k".toList, "x".toList⟩

/-- The §8 scenario credential: source `acct`, mount path `data/project`. -/
def secAcct : Secret :=
  ⟨"acct-filer-conn-secret".toList, "data/project".toList,
   "http://min.io".toList, "k".toList, "x".toList⟩

/-- A secret that matches the name filter but misses a required field. -/
def secNoUrl : Secret :=
  ⟨"b-filer-conn-secret".toList, "bucket".toList, [], "k".toList, "x".toList⟩

/-- A secret whose name does not contain `filer-conn-secret`, with all data
fields populated. -/
def secOther : Secret :=
  ⟨"my-other-secret".toList, "bucket".toList, "u".toList, "k".toList, "x".toList⟩

/-- A pod whose only container already has a volume mount while the pod-level
volume list is empty (used against claim C7). -/
def podMounts : Pod :=
  { metadata := ⟨"zone".toList, [(notebookNameKey, "nb".toList)], none⟩,
    spec := { containers :=
                [{ name := "nb".toList, args := [],
                   env := [⟨"NB_PREFIX".toList, "/nb".toList⟩],
                   volumeMounts := [⟨"pre".toList, "/data".toList⟩] }],
              volumes := [] } }

/-- The fd-passing volume name generated for the `acct` credential. -/
def fdNameC5 (ns : GoStr) : GoStr :=
  "fuse-fd-passing-acct-data-proje-".toList ++ ns

/-- The CSI ephemeral volume name generated for the `acct` credential. -/
def csiNameC5 (ns : GoStr) : GoStr :=
  "fuse-csi-ephemeral-acct-data-proje-".toList ++ ns

/-- The expected patch for `podNs ns` with the single `acct` credential. -/
def opsC5 (ns : GoStr) : List PatchOp :=
  [{ op := "add".toList, path := "/spec/containers/-".toList,
     value := some (.container
       { name := "acct-data-proje".toList,
         args := ["-c".toList, goofysArg "http://min.io".toList "data/project".toList],
         env :=
           [⟨"E0".toList, "fusermount3-proxy-acct-data-proje-".toList ++ ns ++
               "/fuse-csi-ephemeral.sock".toList⟩,
            ⟨"E1".toList, "k".toList⟩,
            ⟨"E2".toList, "x".toList⟩],
         volumeMounts :=
           [⟨fdNameC5 ns, "fusermount3-proxy-acct-data-proje-".toList ++ ns⟩] }) },
   { op := "add".toList, path := "/spec/volumes".toList,
     value := some (.volumeList [⟨fdNameC5 ns, none⟩]) },
   { op := "add".toList, path := "/spec/volumes/-".toList,
     value := some (.volume ⟨csiNameC5 ns, some ⟨some [(attrKey, fdNameC5 ns)]⟩⟩) },
   { op := "add".toList, path := "/metadata/annotations".toList,
     value := some (.strMap [(statusKey, "injected".toList)]) },
   { op := "add".toList, path := "/spec/containers/0/volumeMounts".toList,
     value := some (.mountList
       [⟨csiNameC5 ns, "/home/jovyan/filers/acct/data/project".toList, false,
         "HostToContainer".toList⟩]) }]

/-- Default loop state, used only as the `Option.getD` fallback of concrete
witnesses. -/
def defaultState : LoopState := ⟨⟨[], []⟩, false, [], []⟩

/-- The loop state after processing the single `acct` credential for `podEx`. -/
def stAcct : LoopState :=
  (processSecrets podEx annEx (fun _ => 0) (initState podEx tmplEx)
    [secAcct]).getD defaultState

/-- The operation `updateWorkingVolumeMounts` emits for `nbContainer` with the
flag set, at volume name "v", bucket "b" and filer "f". -/
def opFirstMount : PatchOp :=
  { op := "add".toList, path := "/spec/containers/0/volumeMounts".toList,
    value := some (.mountList [⟨"v".toList,
      "/home/jovyan/filers/f/b".toList, false, "HostToContainer".toList⟩]) }

/-! ## Helper lemmas -/

theorem lookupStr_mapSet_self (m : List (GoStr × GoStr)) (k v : GoStr) :
    lookupStr (mapSet m k v) k = some v := by
  induction m with
  | nil => simp [mapSet, lookupStr]
  | cons p rest ih =>
    obtain ⟨k0, v0⟩ := p
    by_cases h : (k0 == k) = true
    · simp [mapSet, h, lookupStr]
    · simp [mapSet, h, lookupStr, ih]

theorem processSecret_not_matched (pod : Pod) (a : List (GoStr × GoStr))
    (rnd : Nat) (st : LoopState) (s : Secret)
    (h : containsSubstr s.name filerPat = false) :
    processSecret pod a rnd st s = some st := by
  simp [processSecret, h]

theorem processSecret_missing_field (pod : Pod) (a : List (GoStr × GoStr))
    (rnd : Nat) (st : LoopState) (s : Secret)
    (h : s.s3Bucket = [] ∨ s.s3Url = [] ∨ s.s3Access = [] ∨ s.s3Secret = []) :
    processSecret pod a rnd st s = some st := by
  unfold processSecret
  by_cases hm : containsSubstr s.name filerPat = true
  · rw [if_pos hm]
    rcases h with h | h | h | h <;> simp [h]
  · rw [if_neg hm]

theorem processSecret_tmpl (pod : Pod) (a : List (GoStr × GoStr)) (rnd : Nat)
    (st : LoopState) (s : Secret) (st' : LoopState)
    (h : processSecret pod a rnd st s = some st') : st'.tmpl = st.tmpl := by
  unfold processSecret at h
  split at h
  · split at h
    · injection h with h; subst h; rfl
    · dsimp only at h
      split at h
      · cases h
      · injection h with h; subst h; rfl
  · injection h with h; subst h; rfl

theorem processSecrets_tmpl (pod : Pod) (a : List (GoStr × GoStr)) :
    ∀ (l : List Secret) (rands : Nat → Nat) (st st' : LoopState),
      processSecrets pod a rands st l = some st' → st'.tmpl = st.tmpl := by
  intro l
  induction l with
  | nil =>
    intro rands st st' h
    injection h with h; subst h; rfl
  | cons s rest ih =>
    intro rands st st' h
    unfold processSecrets at h
    cases hp : processSecret pod a (rands 0) st s with
    | none => rw [hp] at h; cases h
    | some st1 =>
      rw [hp] at h
      rw [ih _ _ _ h, processSecret_tmpl pod a (rands 0) st s st1 hp]

theorem processSecrets_all_skip (pod : Pod) (a : List (GoStr × GoStr)) :
    ∀ (l : List Secret) (rands : Nat → Nat) (st : LoopState),
      (∀ s ∈ l, containsSubstr s.name filerPat = false ∨ s.s3Bucket = [] ∨
        s.s3Url = [] ∨ s.s3Access = [] ∨ s.s3Secret = []) →
      processSecrets pod a rands st l = some st := by
  intro l
  induction l with
  | nil => intro rands st _; rfl
  | cons s rest ih =>
    intro rands st h
    unfold processSecrets
    have hstep : processSecret pod a (rands 0) st s = some st := by
      rcases h s (by simp) with h1 | h2
      · exact processSecret_not_matched pod a (rands 0) st s h1
      · exact processSecret_missing_field pod a (rands 0) st s h2
    rw [hstep]
    exact ih _ st (fun x hx => h x (by simp [hx]))

theorem processSecret_flag (pod : Pod) (a : List (GoStr × GoStr)) (rnd : Nat)
    (st : LoopState) (s : Secret) (st' : LoopState)
    (h : processSecret pod a rnd st s = some st')
    (hinv : st.isFirstVol = (st.filerBucketList.isEmpty && pod.spec.volumes.isEmpty)) :
    st'.isFirstVol = (st'.filerBucketList.isEmpty && pod.spec.volumes.isEmpty) := by
  unfold processSecret at h
  split at h
  · split at h
    · injection h with h; subst h; exact hinv
    · dsimp only at h
      split at h
      · cases h
      · injection h with h; subst h; simp
  · injection h with h; subst h; exact hinv

theorem processSecrets_flag (pod : Pod) (a : List (GoStr × GoStr)) :
    ∀ (l : List Secret) (rands : Nat → Nat) (st st' : LoopState),
      processSecrets pod a rands st l = some st' →
      st.isFirstVol = (st.filerBucketList.isEmpty && pod.spec.volumes.isEmpty) →
      st'.isFirstVol = (st'.filerBucketList.isEmpty && pod.spec.volumes.isEmpty) := by
  intro l
  induction l with
  | nil =>
    intro rands st st' h hinv
    injection h with h; subst h; exact hinv
  | cons s rest ih =>
    intro rands st st' h hinv
    unfold processSecrets at h
    cases hp : processSecret pod a (rands 0) st s with
    | none => rw [hp] at h; cases h
    | some st1 =>
      rw [hp] at h
      exact ih _ _ _ h (processSecret_flag pod a (rands 0) st s st1 hp hinv)

theorem initState_flag (pod : Pod) (tmpl : Config) :
    (initState pod tmpl).isFirstVol =
      ((initState pod tmpl).filerBucketList.isEmpty && pod.spec.volumes.isEmpty) := by
  unfold initState
  cases pod.spec.volumes <;> simp

theorem digitChar_alnum (k : Nat) (h : k < 10) :
    isLowerAlnum (digitChar k) = true := by
  interval_cases k <;> decide

theorem natDigitsCore_spec :
    ∀ (fuel n : Nat) (acc : GoStr),
      ∃ pre, natDigitsCore fuel n acc = pre ++ acc ∧
        (∀ c ∈ pre, isLowerAlnum c = true) ∧ (0 < fuel → pre ≠ []) := by
  intro fuel
  induction fuel with
  | zero => exact fun n acc => ⟨[], rfl, by simp, by omega⟩
  | succ fuel ih =>
    intro n acc
    by_cases h : n < 10
    · refine ⟨[digitChar n], ?_, ?_, by simp⟩
      · simp [natDigitsCore, h]
      · intro c hc
        simp only [List.mem_singleton] at hc
        subst hc
        exact digitChar_alnum n h
    · obtain ⟨pre, h1, h2, _⟩ := ih (n / 10) (digitChar (n % 10) :: acc)
      refine ⟨pre ++ [digitChar (n % 10)], ?_, ?_, by simp⟩
      · simp only [natDigitsCore, if_neg h, h1, List.append_assoc,
          List.singleton_append]
      · intro c hc
        rcases List.mem_append.mp hc with hm | hm
        · exact h2 c hm
        · simp only [List.mem_singleton] at hm
          subst hm
          exact digitChar_alnum _ (Nat.mod_lt _ (by omega))

theorem natDigits_ne_nil (n : Nat) : natDigits n ≠ [] := by
  obtain ⟨pre, h1, _, h3⟩ := natDigitsCore_spec (n + 1) n []
  unfold natDigits
  rw [h1, List.append_nil]
  exact h3 (by omega)

theorem natDigits_alnum (n : Nat) : ∀ c ∈ natDigits n, isLowerAlnum c = true := by
  obtain ⟨pre, h1, h2, _⟩ := natDigitsCore_spec (n + 1) n []
  unfold natDigits
  rw [h1, List.append_nil]
  exact h2

theorem validNameRegex_append_suffix (s : GoStr) (m : Nat)
    (h : validNameRegex s = true) :
    validNameRegex (s ++ "-".toList ++ natDigits m) = true := by
  cases s with
  | nil => simp [validNameRegex] at h
  | cons c cs =>
    unfold validNameRegex at h ⊢
    simp only [Bool.and_eq_true] at h
    obtain ⟨⟨⟨_, hhead⟩, hall⟩, _⟩ := h
    have hdig := natDigits_alnum m
    have hndn := natDigits_ne_nil m
    simp only [Bool.and_eq_true]
    refine ⟨⟨⟨by simp, ?_⟩, ?_⟩, ?_⟩
    · simpa using hhead
    · simp only [List.all_append, Bool.and_eq_true]
      refine ⟨⟨hall, by decide⟩, ?_⟩
      exact List.all_eq_true.mpr fun x hx => by
        simp [nameChar, hdig x hx]
    · obtain ⟨d, ds', hrev⟩ : ∃ d ds', (natDigits m).reverse = d :: ds' := by
        cases hr : (natDigits m).reverse with
        | nil => exact absurd (List.reverse_eq_nil_iff.mp hr) hndn
        | cons d ds' => exact ⟨d, ds', rfl⟩
      have hd : d ∈ natDigits m := by
        have : d ∈ (natDigits m).reverse := by rw [hrev]; simp
        simpa using this
      rw [List.reverse_append, hrev]
      simpa using hdig d hd

theorem negSet_contains_iff (m : List (GoStr × GoStr)) :
    negSet.contains (goToLower (lookupD m injectKey)) = true ↔
      ((lookupStr m injectKey).isSome = true ∧
       goToLower (lookupD m injectKey) ∈ negSet) := by
  cases h : lookupStr m injectKey with
  | none =>
    have hD : lookupD m injectKey = [] := by simp [lookupD, h]
    rw [hD]
    simp [h]
    decide
  | some v =>
    have hD : lookupD m injectKey = v := by simp [lookupD, h]
    rw [hD]
    simp [h, List.elem_iff]

/-! ## C1: the mutation policy -/

/-- C1.  `mutationRequired` returns `true` exactly when the eligibility label
`notebook-name` is present, the status annotation does not case-insensitively
equal `injected`, and it is not the case that the inject-control annotation is
present with a lowercased value in {"n","not","false","off"}; in particular it
returns `true` when the inject-control annotation is absent. -/
theorem mutationRequired_characterization (md : ObjectMeta) :
    mutationRequired md = true ↔
      ((lookupStr md.labels notebookNameKey).isSome = true ∧
       goToLower (lookupD (md.annots.getD []) statusKey) ≠ "injected".toList ∧
       ¬ ((lookupStr (md.annots.getD []) injectKey).isSome = true ∧
          goToLower (lookupD (md.annots.getD []) injectKey) ∈ negSet)) := by
  unfold mutationRequired
  by_cases h1 : (lookupStr md.labels notebookNameKey).isSome = true
  · rw [if_neg (by simp [h1])]
    by_cases h2 : goToLower (lookupD (md.annots.getD []) statusKey) = "injected".toList
    · rw [if_pos (by simp [h2])]
      simp [h1, h2]
    · rw [if_neg (by simpa using h2)]
      by_cases h3 : negSet.contains (goToLower (lookupD (md.annots.getD []) injectKey)) = true
      · rw [if_pos h3]
        simp [h1, h2, (negSet_contains_iff (md.annots.getD [])).mp h3]
      · rw [if_neg h3]
        simp only [true_iff]
        refine ⟨h1, h2, fun hc => h3 ((negSet_contains_iff (md.annots.getD [])).mpr hc)⟩
  · rw [if_pos (by simpa using h1)]
    simp [h1]

/-! ## C2: the two same-name couplings of every generated sidecar -/

/-- C2.  Whenever the template specialization succeeds (every generated
sidecar goes through it), the first volume mount of the sidecar container,
the first volume, and the `fdPassingEmptyDirName` CSI attribute of the second
volume all carry the same name `fuse-fd-passing-<token>-<namespace>`. -/
theorem specialize_sameName_couplings (tmpl sc : Config)
    (fb ns bm u a s : GoStr)
    (h : specialize tmpl fb ns bm u a s = some sc) :
    ∃ c0 v0 v1,
      sc.containers.head? = some c0 ∧
      sc.volumes.head? = some v0 ∧
      (sc.volumes.drop 1).head? = some v1 ∧
      c0.volumeMounts.head?.map VolumeMount.name = some v0.name ∧
      v0.name = "fuse-fd-passing-".toList ++ fb ++ "-".toList ++ ns ∧
      (v1.csi.bind CSIVolumeSource.volumeAttributes).bind
        (fun attrs => lookupStr attrs attrKey) = some v0.name := by
  unfold specialize at h
  split at h
  · split at h
    · split at h
      · injection h with h
        subst h
        refine ⟨_, _, _, rfl, rfl, rfl, rfl, rfl, ?_⟩
        simp [Option.bind, lookupStr_mapSet_self]
      · cases h
    · cases h
  · cases h

/-- Witness for C2 at a concrete template, token and namespace. -/
theorem specialize_sameName_couplings_witness :
    ∃ c0 v0 v1,
      ((specialize tmplEx ("n1".toList) ("zone".toList) ("b".toList)
          ("u".toList) ("k".toList) ("x".toList)).getD ⟨[], []⟩).containers.head? = some c0 ∧
      ((specialize tmplEx ("n1".toList) ("zone".toList) ("b".toList)
          ("u".toList) ("k".toList) ("x".toList)).getD ⟨[], []⟩).volumes.head? = some v0 ∧
      (((specialize tmplEx ("n1".toList) ("zone".toList) ("b".toList)
          ("u".toList) ("k".toList) ("x".toList)).getD ⟨[], []⟩).volumes.drop 1).head? = some v1 ∧
      c0.volumeMounts.head?.map VolumeMount.name = some v0.name ∧
      v0.name = "fuse-fd-passing-".toList ++ "n1".toList ++ "-".toList ++ "zone".toList ∧
      (v1.csi.bind CSIVolumeSource.volumeAttributes).bind
        (fun attrs => lookupStr attrs attrKey) = some v0.name :=
  specialize_sameName_couplings tmplEx
    ((specialize tmplEx ("n1".toList) ("zone".toList) ("b".toList)
        ("u".toList) ("k".toList) ("x".toList)).getD ⟨[], []⟩)
    ("n1".toList) ("zone".toList) ("b".toList) ("u".toList) ("k".toList) ("x".toList)
    rfl

/-! ## C3: uniqueness of generated names within one request -/

/-- C3 (amended).  The dedup step guarantees freshness only when the
ordinal-suffixed candidate itself is not already recorded; whenever the
computed name is already present, the returned name is the computed name with
`-<n>` appended, n = 1 + the count of names generated so far. -/
theorem dedupName_fresh_unless_suffix_taken (used : List GoStr) (n : GoStr)
    (h : used.contains (n ++ "-".toList ++ natDigits (used.length + 1)) = false) :
    used.contains (dedupName used n) = false ∧
    (used.contains n = true →
      dedupName used n = n ++ "-".toList ++ natDigits (used.length + 1)) := by
  unfold dedupName
  by_cases hc : used.contains n = true
  · rw [if_pos hc]
    exact ⟨h, fun _ => rfl⟩
  · have hc' : used.contains n = false := by
      cases hcc : used.contains n
      · rfl
      · exact absurd hcc hc
    rw [if_neg hc]
    exact ⟨hc', fun hx => absurd hx hc⟩

/-- Witness for the amended C3 at concrete inputs. -/
theorem dedupName_fresh_unless_suffix_taken_witness :
    ["b".toList].contains (dedupName ["b".toList] ("b".toList)) = false ∧
    (["b".toList].contains ("b".toList) = true →
      dedupName ["b".toList] ("b".toList) =
        "b".toList ++ "-".toList ++ natDigits ([("b".toList)].length + 1)) :=
  dedupName_fresh_unless_suffix_taken ["b".toList] ("b".toList) (by decide)

/-- Counterexample to C3 as stated: in listing order the three secrets
`secA`, `secB`, `secC` compute the names "a-3", "a", "a"; the third is a
duplicate of the second computed name, so it receives the ordinal suffix
"-3" (1 + the 2 names generated so far) — but "a-3" is already recorded from
the first secret.  The name returned for the third secret is therefore not
distinct from the names already in the request's used-name list. -/
theorem createPatch_duplicate_name_example :
    ((processSecrets podEx annEx (fun _ => 0) (initState podEx tmplEx)
        [secA, secB, secC]).map (fun st => st.filerBucketList)) =
      some ["a-3".toList, "a".toList, "a-3".toList] ∧
    ("a-3".toList : GoStr) ∈ ["a-3".toList, "a".toList] :=
  ⟨by decide, by decide⟩

/-! ## C4: the validity grammar of generated names -/

/-- C4 (amended).  Off the numeric-fallback path (the name passes the regex
either directly or after the `cleanName` retry), the validated name matches
the grammar, and when the mount path has a single segment — so that no
deepest-directory segment is appended after validation — the final returned
name, including any ordinal dedup suffix, matches the grammar as well. -/
theorem nameValid_offFallback (filerName bucketMount : GoStr) (rnd : Nat)
    (used : List GoStr)
    (hoff : validNameRegex (rawNameOf filerName bucketMount) = true ∨
            validNameRegex (cleanName (rawNameOf filerName bucketMount)) = true)
    (hsingle : (goSplit '/' bucketMount).length < 2) :
    validNameRegex (dedupName used (nameForSecret rnd filerName bucketMount)) = true := by
  have hval : validNameRegex
      (validatedNameOf rnd (rawNameOf filerName bucketMount)) = true := by
    unfold validatedNameOf
    by_cases h1 : validNameRegex (rawNameOf filerName bucketMount) = true
    · rw [if_pos h1]
      exact h1
    · rcases hoff with h | h
      · exact absurd h h1
      · rw [if_neg h1, if_pos h]
        exact h
  have hname : nameForSecret rnd filerName bucketMount =
      validatedNameOf rnd (rawNameOf filerName bucketMount) := by
    unfold nameForSecret withDeepest
    rw [if_neg (by omega)]
  rw [hname]
  unfold dedupName
  by_cases hc : used.contains
      (validatedNameOf rnd (rawNameOf filerName bucketMount)) = true
  · rw [if_pos hc]
    exact validNameRegex_append_suffix _ _ hval
  · rw [if_neg hc]
    exact hval

/-- Witness for the amended C4 at concrete inputs (a name that collides, so
the ordinal suffix is exercised too). -/
theorem nameValid_offFallback_witness :
    validNameRegex (dedupName ["ab-c".toList]
      (nameForSecret 5 ("ab".toList) ("c".toList))) = true :=
  nameValid_offFallback ("ab".toList) ("c".toList) 5 ["ab-c".toList]
    (Or.inl (by decide)) (by decide)

/-- Counterexample to C4 as stated: with source "a" and mount path "b/C" the
raw name "a-b" passes the regex, so the numeric-fallback path is not taken —
yet the returned name "a-b-C" violates the grammar, because the truncated
deepest-directory segment is appended after the validation step. -/
theorem nameForSecret_invalid_offFallback_example :
    validNameRegex (rawNameOf ("a".toList) ("b/C".toList)) = true ∧
    nameForSecret 0 ("a".toList) ("b/C".toList) = "a-b-C".toList ∧
    validNameRegex (nameForSecret 0 ("a".toList) ("b/C".toList)) = false :=
  ⟨by decide, by decide, by decide⟩

/-! ## C5: the §8 scenario with source "acct" and mount path "data/project" -/

/-- C5 (amended).  For any namespace and any random stream, a pod with the
eligibility label and the single valid credential (source "acct", mount path
"data/project") yields exactly the expected patch: the sidecar container is
named "acct-data-proje" (the truncated deepest directory is appended), its
env[0] value is "fusermount3-proxy-acct-data-proje-<namespace>/fuse-csi-ephemeral.sock",
and the generated volumes are "fuse-fd-passing-acct-data-proje-<namespace>"
and "fuse-csi-ephemeral-acct-data-proje-<namespace>". -/
theorem createPatch_acct_scenario (ns : GoStr) (rands : Nat → Nat) :
    createPatch (podNs ns) tmplEx annEx rands [secAcct] =
      some (MarshalResult.jarr (opsC5 ns)) := rfl

/-- Counterexample to C5 as stated: at namespace "zone" the generated sidecar
container is named "acct-data-proje", not "acct-data". -/
theorem createPatch_acct_name_example :
    ((createPatch podEx tmplEx annEx (fun _ => 0) [secAcct]).map (fun r =>
        match r with
        | .jarr (⟨_, _, some (.container c)⟩ :: _) => some c.name
        | _ => none)) = some (some ("acct-data-proje".toList)) ∧
    ("acct-data-proje".toList : GoStr) ≠ "acct-data".toList :=
  ⟨rfl, by decide⟩

/-! ## C6: no valid candidate ⇒ success, with JSON `null` output -/

/-- C6 (amended).  When no secret in the listing is a valid credential
candidate (including the empty listing), `createPatch` succeeds — but the
accumulated patch slice is still `nil`, which Go's `json.Marshal` serializes
as JSON `null`, not as the empty array `[]`. -/
theorem createPatch_no_candidate_null (pod : Pod) (tmpl : Config)
    (a : List (GoStr × GoStr)) (rands : Nat → Nat) (secrets : List Secret)
    (h : ∀ s ∈ secrets, containsSubstr s.name filerPat = false ∨
      s.s3Bucket = [] ∨ s.s3Url = [] ∨ s.s3Access = [] ∨ s.s3Secret = []) :
    createPatch pod tmpl a rands secrets = some MarshalResult.jnull := by
  unfold createPatch
  rw [processSecrets_all_skip pod a secrets rands (initState pod tmpl) h]
  rfl

/-- Witness for the amended C6: one non-matching secret and one matching
secret with an empty endpoint URL. -/
theorem createPatch_no_candidate_null_witness :
    createPatch podEx tmplEx annEx (fun _ => 0) [secOther, secNoUrl] =
      some MarshalResult.jnull :=
  createPatch_no_candidate_null podEx tmplEx annEx (fun _ => 0)
    [secOther, secNoUrl] (by decide)

/-- Counterexample to C6 as stated: with an empty listing the serialized
output is JSON `null` (`jnull`), which is not the empty JSON array. -/
theorem createPatch_empty_is_null_example :
    createPatch podEx tmplEx annEx (fun _ => 0) [] = some MarshalResult.jnull ∧
    MarshalResult.jnull ≠ MarshalResult.jarr [] :=
  ⟨rfl, by decide⟩

/-! ## C7: the isFirst flag of the working-volume-mount builder -/

/-- C7 (amended).  (1) In every state reachable in a request — in particular
the state whose `isFirstVol` flag is consumed by the next accepted secret —
the flag is `true` exactly when the request has generated no name yet and the
pod had zero pre-existing pod-level volumes (the code inspects
`pod.Spec.Volumes`, not the volume mounts of container 0).  (2) When the flag
is `true` the builder emits only `add` operations whose value is a singleton
list at the volume-mounts path of container 0; otherwise only `add`
operations appending at that path's append position (dash suffix). -/
theorem isFirst_flag_semantics :
    (∀ (pod : Pod) (tmpl : Config) (a : List (GoStr × GoStr))
        (rands : Nat → Nat) (pre : List Secret) (st' : LoopState),
        processSecrets pod a rands (initState pod tmpl) pre = some st' →
        st'.isFirstVol = (st'.filerBucketList.isEmpty && pod.spec.volumes.isEmpty)) ∧
    (∀ (tgt : List Container) (vn bm fn : GoStr) (b : Bool) (op : PatchOp),
        op ∈ updateWorkingVolumeMounts tgt vn bm fn b →
        op.op = "add".toList ∧
        op.path = (if b then "/spec/containers/0/volumeMounts".toList
                   else "/spec/containers/0/volumeMounts/-".toList) ∧
        (if b then ∃ m, op.value = some (PatchValue.mountList [m])
         else ∃ m, op.value = some (PatchValue.mount m))) := by
  constructor
  · intro pod tmpl a rands pre st' h
    exact processSecrets_flag pod a pre rands (initState pod tmpl) st' h
      (initState_flag pod tmpl)
  · intro tgt vn bm fn b op hop
    unfold updateWorkingVolumeMounts at hop
    rw [List.mem_flatMap] at hop
    obtain ⟨c, _, hc⟩ := hop
    rw [List.mem_flatMap] at hc
    obtain ⟨e, _, he⟩ := hc
    by_cases hn : (e.name == "NB_PREFIX".toList) = true
    · rw [if_pos hn] at he
      cases b
      · simp only [Bool.false_eq_true, if_false, List.mem_singleton] at he
        subst he
        exact ⟨rfl, rfl, ⟨_, rfl⟩⟩
      · simp only [if_true, List.mem_singleton] at he
        subst he
        exact ⟨rfl, rfl, ⟨_, rfl⟩⟩
    · rw [if_neg hn] at he
      cases he

/-- Witness for the amended C7: the state feeding the flag after one accepted
secret, and the concrete singleton-mount operation of the builder. -/
theorem isFirst_flag_semantics_witness :
    (stAcct.isFirstVol =
      (stAcct.filerBucketList.isEmpty && podEx.spec.volumes.isEmpty)) ∧
    (opFirstMount.op = "add".toList ∧
     opFirstMount.path = (if true then "/spec/containers/0/volumeMounts".toList
                          else "/spec/containers/0/volumeMounts/-".toList) ∧
     (if true then ∃ m, opFirstMount.value = some (PatchValue.mountList [m])
      else ∃ m, opFirstMount.value = some (PatchValue.mount m))) :=
  ⟨isFirst_flag_semantics.1 podEx tmplEx annEx (fun _ => 0) [secAcct] stAcct rfl,
   isFirst_flag_semantics.2 [nbContainer] ("v".toList) ("b".toList) ("f".toList)
     true opFirstMount (by decide)⟩

/-- Counterexample to C7 as stated: `podMounts`'s only container already has
a volume mount, yet — because the pod-level volume list is empty — the flag
consumed for the first credential is `true`, observable as the emitted
singleton-list `add` at the volume-mounts path of container 0. -/
theorem isFirst_flag_ignores_mounts_example :
    (podMounts.spec.containers.headD nbContainer).volumeMounts ≠ [] ∧
    ((createPatch podMounts tmplEx annEx (fun _ => 0) [secAcct]).map (fun r =>
        match r with
        | .jarr ops => ops.any
            (fun op => op.path == "/spec/containers/0/volumeMounts".toList)
        | .jnull => false)) = some true :=
  ⟨by decide, rfl⟩

/-! ## C8: invalid credential records are skipped, not fatal -/

/-- C8.  A matched secret with any of the four required fields empty leaves
the loop state unchanged — no patch operation, no recorded name — and the
iteration returns successfully, so processing of the remaining records
continues. -/
theorem invalid_record_skipped (pod : Pod) (a : List (GoStr × GoStr))
    (rnd : Nat) (st : LoopState) (s : Secret)
    (_hmatch : containsSubstr s.name filerPat = true)
    (hempty : s.s3Bucket = [] ∨ s.s3Url = [] ∨ s.s3Access = [] ∨
      s.s3Secret = []) :
    processSecret pod a rnd st s = some st :=
  processSecret_missing_field pod a rnd st s hempty

/-- Witness for C8 at the concrete secret with an empty endpoint URL. -/
theorem invalid_record_skipped_witness :
    processSecret podEx annEx 0 (initState podEx tmplEx) secNoUrl =
      some (initState podEx tmplEx) :=
  invalid_record_skipped podEx annEx 0 (initState podEx tmplEx) secNoUrl
    (by decide) (by decide)

/-! ## C9: the shared sidecar template is never mutated -/

/-- C9.  The template component of the request state is identical before and
after processing any list of secrets: each credential's specialization is
applied to an independent copy (`deepcopy.Anything` in the source), never
written back to the shared template. -/
theorem template_never_mutated (pod : Pod) (a : List (GoStr × GoStr))
    (rands : Nat → Nat) (st st' : LoopState) (l : List Secret)
    (h : processSecrets pod a rands st l = some st') :
    st'.tmpl = st.tmpl :=
  processSecrets_tmpl pod a l rands st st' h

/-- Witness for C9 after one accepted credential. -/
theorem template_never_mutated_witness :
    stAcct.tmpl = (initState podEx tmplEx).tmpl :=
  template_never_mutated podEx annEx (fun _ => 0) (initState podEx tmplEx)
    stAcct [secAcct] rfl

/-! ## C10: only secrets named like `filer-conn-secret` are candidates -/

/-- C10.  A secret whose name does not contain the substring
`filer-conn-secret` leaves the loop state unchanged — no patch operations, no
generated name, no annotation — regardless of its data fields. -/
theorem nonmatching_secret_ignored (pod : Pod) (a : List (GoStr × GoStr))
    (rnd : Nat) (st : LoopState) (s : Secret)
    (h : containsSubstr s.name filerPat = false) :
    processSecret pod a rnd st s = some st :=
  processSecret_not_matched pod a rnd st s h

/-- Witness for C10 at a fully populated secret with a non-matching name. -/
theorem nonmatching_secret_ignored_witness :
    processSecret podEx annEx 0 (initState podEx tmplEx) secOther =
      some (initState podEx tmplEx) :=
  nonmatching_secret_ignored podEx annEx 0 (initState podEx tmplEx) secOther
    (by decide)
